import Mathlib

/-!
Shallow embedding of the profile aggregation core of libdatadog
(src/profiling): string interning, entity deduplication, sample
aggregation, endpoint enrichment, upscaling-rule registration and the
append-only allocation table.  Definitions are translated from the Rust
sources under src/profiling/src.  Components that the sources reference
but whose files are absent from the tree (the observation store, the
upscaling-rule collision checker, the upscaling-info validity check) are
modelled from the specification and say so in their doc comments.
-/

deriving instance DecidableEq for Except

namespace Datadog

/-- First-occurrence index of an element in a list, `none` when absent.
This is the lookup semantics of the hash maps keyed by full value
equality used by the string table and the entity tables. -/
def listIdxOf [DecidableEq α] : List α → α → Option Nat
  | [], _ => none
  | x :: xs, a => if x = a then some 0 else (listIdxOf xs a).map (· + 1)

/-- Insert-or-find: `FxIndexSet::dedup`, `Table::insert_full`
(src/profiling/src/collections/identifiable/table.rs lines 101-119) and
`StringTable::insert_full`
(src/profiling/src/collections/identifiable/string_table.rs lines
134-155) all return the index of an equal existing element, or append
the element and return the fresh index. -/
def dedupInsert [DecidableEq α] (xs : List α) (a : α) : Nat × List α :=
  match listIdxOf xs a with
  | some i => (i, xs)
  | none => (xs.length, xs ++ [a])

theorem listIdxOf_append_left [DecidableEq α] {xs : List α} {a : α} {i : Nat}
    (h : listIdxOf xs a = some i) (u : List α) : listIdxOf (xs ++ u) a = some i := by
  induction xs generalizing i with
  | nil => simp [listIdxOf] at h
  | cons x xs ih =>
    simp only [listIdxOf, List.cons_append] at h ⊢
    by_cases hx : x = a
    · simpa [hx] using h
    · simp only [hx, if_false, Option.map_eq_some'] at h ⊢
      obtain ⟨j, hj, rfl⟩ := h
      exact ⟨j, ih hj, rfl⟩

theorem listIdxOf_append_self [DecidableEq α] {xs : List α} {a : α}
    (h : listIdxOf xs a = none) : listIdxOf (xs ++ [a]) a = some xs.length := by
  induction xs with
  | nil => simp [listIdxOf]
  | cons x xs ih =>
    simp only [listIdxOf, List.cons_append] at h ⊢
    by_cases hx : x = a
    · simp [hx] at h
    · simp only [hx, if_false, Option.map_eq_none'] at h
      simp [hx, ih h]

theorem listIdxOf_lt_length [DecidableEq α] {xs : List α} {a : α} {i : Nat}
    (h : listIdxOf xs a = some i) : i < xs.length := by
  induction xs generalizing i with
  | nil => simp [listIdxOf] at h
  | cons x xs ih =>
    simp only [listIdxOf] at h
    by_cases hx : x = a
    · simp only [hx, if_true, Option.some.injEq] at h
      subst h
      simp
    · simp only [hx, if_false, Option.map_eq_some'] at h
      obtain ⟨j, hj, rfl⟩ := h
      have := ih hj
      simp only [List.length_cons]
      omega

theorem listIdxOf_getD [DecidableEq α] {xs : List α} {a : α} {i : Nat}
    (h : listIdxOf xs a = some i) (d : α) : xs.getD i d = a := by
  induction xs generalizing i with
  | nil => simp [listIdxOf] at h
  | cons x xs ih =>
    simp only [listIdxOf] at h
    by_cases hx : x = a
    · simp only [hx, if_true, Option.some.injEq] at h
      subst h
      simp [hx]
    · simp only [hx, if_false, Option.map_eq_some'] at h
      obtain ⟨j, hj, rfl⟩ := h
      simpa using ih hj

theorem getD_append_left {α : Type _} {xs : List α} (u : List α) {i : Nat} (d : α)
    (h : i < xs.length) : (xs ++ u).getD i d = xs.getD i d := by
  induction xs generalizing i with
  | nil => simp at h
  | cons x xs ih =>
    cases i with
    | zero => simp
    | succ j =>
      simp only [List.cons_append, List.getD_cons_succ]
      exact ih (by simpa using Nat.lt_of_succ_lt_succ h)

/-- The result of `dedupInsert` extends the input list. -/
theorem dedupInsert_ext [DecidableEq α] (xs : List α) (a : α) :
    ∃ u, (dedupInsert xs a).2 = xs ++ u := by
  unfold dedupInsert
  cases h : listIdxOf xs a with
  | none => exact ⟨[a], rfl⟩
  | some i => exact ⟨[], by simp⟩

/-- After a `dedupInsert`, the element is found at the returned index. -/
theorem dedupInsert_idx [DecidableEq α] (xs : List α) (a : α) :
    listIdxOf (dedupInsert xs a).2 a = some (dedupInsert xs a).1 := by
  unfold dedupInsert
  cases h : listIdxOf xs a with
  | none => simpa using listIdxOf_append_self h
  | some i => simpa using h

theorem dedupInsert_of_found [DecidableEq α] {xs : List α} {a : α} {i : Nat}
    (h : listIdxOf xs a = some i) : dedupInsert xs a = (i, xs) := by
  unfold dedupInsert
  rw [h]

/-- Interning twice in a row returns the same index both times. -/
theorem dedupInsert_twice [DecidableEq α] (xs : List α) (a : α) :
    dedupInsert (dedupInsert xs a).2 a = ((dedupInsert xs a).1, (dedupInsert xs a).2) := by
  exact dedupInsert_of_found (dedupInsert_idx xs a)

theorem dedupInsert_getD [DecidableEq α] (xs : List α) (a d : α) :
    (dedupInsert xs a).2.getD (dedupInsert xs a).1 d = a :=
  listIdxOf_getD (dedupInsert_idx xs a) d

theorem dedupInsert_fst_lt [DecidableEq α] (xs : List α) (a : α) :
    (dedupInsert xs a).1 < (dedupInsert xs a).2.length :=
  listIdxOf_lt_length (dedupInsert_idx xs a)

/-- Association-list lookup, the semantics of `HashMap::get`. -/
def lookupAssoc [DecidableEq κ] : List (κ × ν) → κ → Option ν
  | [], _ => none
  | (k0, v0) :: rest, k => if k0 = k then some v0 else lookupAssoc rest k

/-- Association-list insert-or-replace, the semantics of `HashMap::insert`. -/
def insertAssoc [DecidableEq κ] : List (κ × ν) → κ → ν → List (κ × ν)
  | [], k, v => [(k, v)]
  | (k0, v0) :: rest, k, v =>
    if k0 = k then (k, v) :: rest else (k0, v0) :: insertAssoc rest k v

theorem lookupAssoc_insertAssoc_self [DecidableEq κ] (m : List (κ × ν)) (k : κ) (v : ν) :
    lookupAssoc (insertAssoc m k v) k = some v := by
  induction m with
  | nil => simp [insertAssoc, lookupAssoc]
  | cons p rest ih =>
    obtain ⟨k0, v0⟩ := p
    by_cases hk : k0 = k
    · simp [insertAssoc, hk, lookupAssoc]
    · simp [insertAssoc, hk, lookupAssoc, ih]

/-! Internal data model, from src/profiling/src/profile/internal/label.rs
and the entity structs described by the spec's data model.  String ids,
label ids, label-set ids, stack-trace ids and entity ids are dense
offsets into insertion-ordered tables and are represented as `Nat`. -/

/-- Label value: either an interned string or a number with an optional
interned unit (src/profiling/src/profile/internal/label.rs lines 6-13). -/
inductive LabelValue where
  | str (v : Nat)
  | num (num : Int) (num_unit : Option Nat)
deriving DecidableEq

/-- Internal label (src/profiling/src/profile/internal/label.rs lines 15-19). -/
structure Label where
  key : Nat
  value : LabelValue
deriving DecidableEq

/-- Canonical label set: `LabelSet::new` sorts the label ids ascending
(src/profiling/src/profile/internal/label.rs lines 146-156).
`sort_unstable` on ids is modelled by insertion sort, which agrees with
it on the sorted result. -/
structure LabelSet where
  sorted_labels : List Nat
deriving DecidableEq

def LabelSet.new (v : List Nat) : LabelSet :=
  ⟨List.insertionSort (· ≤ ·) v⟩

/-- Function entity, equated by all four fields. -/
structure FunctionE where
  name : Nat
  system_name : Nat
  filename : Nat
  start_line : Int
deriving DecidableEq

/-- Mapping entity. -/
structure MappingE where
  memory_start : Nat
  memory_limit : Nat
  file_offset : Nat
  filename : Nat
  build_id : Nat
deriving DecidableEq

/-- Location entity. -/
structure LocationE where
  mapping_id : Nat
  function_id : Nat
  address : Nat
  line : Int
deriving DecidableEq

/-- Stack trace: ordered location ids, leaf first. -/
structure StackTrace where
  locations : List Nat
deriving DecidableEq

/-- Sample type entry: interned type and unit strings. -/
structure ValueType where
  vtype : Nat
  vunit : Nat
deriving DecidableEq

/-- Upscaling info (api::UpscalingInfo).  The f64 proportional scale is
modelled as a rational; claim C9 uses only its validity check. -/
inductive UpscalingInfo where
  | proportional (scale : ℚ)
  | poisson (sum_value_offset count_value_offset sampling_distance : Nat)
deriving DecidableEq

/-- Upscaling rule: pre-sorted value offsets plus the rule info. -/
structure UpscalingRule where
  values_offset : List Nat
  upscaling_info : UpscalingInfo
deriving DecidableEq

/-! API-side input types (src/profiling/src/profile/api.rs is referenced
from mod.rs; the shapes below are the ones Profile::add consumes: raw
strings, to be interned inside the profile). -/

structure ApiLabel where
  key : String
  str : Option String
  num : Int
  num_unit : Option String
deriving DecidableEq

structure ApiFunction where
  name : String
  system_name : String
  filename : String
  start_line : Int
deriving DecidableEq

structure ApiMapping where
  memory_start : Nat
  memory_limit : Nat
  file_offset : Nat
  filename : String
  build_id : String
deriving DecidableEq

structure ApiLocation where
  mapping : ApiMapping
  function : ApiFunction
  address : Nat
  line : Int
deriving DecidableEq

structure ApiSample where
  locations : List ApiLocation
  values : List Int
  labels : List ApiLabel
deriving DecidableEq

/-- The profile state (src/profiling/src/profile/mod.rs lines 24-40).
Insertion-ordered tables and sets are lists indexed by their dense ids;
the endpoints struct is flattened into its fields.  Arena capacities and
allocation failure are elided: interning is total in the model. -/
structure Profile where
  endpoints_mappings : List (Nat × Nat)
  endpoints_stats : List (String × Int)
  lrsi_label : Nat
  endpoint_label : Nat
  functions : List FunctionE
  labels : List Label
  label_sets : List LabelSet
  locations : List LocationE
  mappings : List MappingE
  obs_agg : List ((Nat × Nat) × List Int)
  obs_ts : List ((Nat × Nat) × Int × List Int)
  period : Option (Int × ValueType)
  sample_types : List ValueType
  stack_traces : List StackTrace
  start_time : Int
  strings : List String
  timestamp_key : Nat
  upscaling_rules : List ((Nat × Nat) × List UpscalingRule)
deriving DecidableEq

/-- StringTable insert (string_table.rs lines 134-155): find the string
in the map or append it; the id is the insertion offset. -/
def stInsert (t : List String) (s : String) : Nat × List String :=
  dedupInsert t s

/-- Profile::intern (mod.rs lines 185-187). -/
def internP (p : Profile) (s : String) : Nat × Profile :=
  let r := stInsert p.strings s
  (r.1, { p with strings := r.2 })

/-- Profile::get_string via StringTable::get_id; out-of-range ids panic
in the source and are mapped to "" here (never exercised by reachable
ids). -/
def getStringP (p : Profile) (i : Nat) : String :=
  p.strings.getD i ""

/-- StringTable::with_capacity (string_table.rs lines 77-96) inserts the
empty string first, so it gets id 0. -/
def stringsNew : List String :=
  (stInsert [] "").2

/-- Profile::new (mod.rs lines 146-176): fresh empty profile whose
string table holds "", "local root span id", "trace endpoint" and
"end_timestamp_ns", interned in that order. -/
def profileNew (t : Int) : Profile :=
  let s0 := stringsNew
  let r0 := stInsert s0 ""
  let r1 := stInsert r0.2 "local root span id"
  let r2 := stInsert r1.2 "trace endpoint"
  let r3 := stInsert r2.2 "end_timestamp_ns"
  { endpoints_mappings := []
    endpoints_stats := []
    lrsi_label := r1.1
    endpoint_label := r2.1
    functions := []
    labels := []
    label_sets := []
    locations := []
    mappings := []
    obs_agg := []
    obs_ts := []
    period := none
    sample_types := []
    stack_traces := []
    start_time := t
    strings := r3.2
    timestamp_key := r3.1
    upscaling_rules := [] }

/-- ProfileBuilder::build interning of the declared sample types, in
order, type string before unit string (mod.rs lines 87-98). -/
def internTypes (strings : List String) : List (String × String) → List String × List ValueType
  | [] => (strings, [])
  | (ty, un) :: rest =>
    let rt := stInsert strings ty
    let ru := stInsert rt.2 un
    let rr := internTypes ru.2 rest
    (rr.1, ⟨rt.1, ru.1⟩ :: rr.2)

/-- ProfileBuilder::build (mod.rs lines 80-111): Profile::new, then the
sample types, then the optional period. -/
def buildProfile (types : List (String × String)) (periodApi : Option (Int × String × String))
    (t : Int) : Profile :=
  let base := profileNew t
  let rt := internTypes base.strings types
  match periodApi with
  | none => { base with strings := rt.1, sample_types := rt.2 }
  | some (v, ty, un) =>
    let r1 := stInsert rt.1 ty
    let r2 := stInsert r1.2 un
    { base with strings := r2.2, sample_types := rt.2, period := some (v, ⟨r1.1, r2.1⟩) }

/-! Profile::add pipeline (mod.rs lines 241-347). -/

/-- Profile::extract_timestamp (mod.rs lines 265-284): finds the
"end_timestamp_ns" label and validates it (numeric, non-zero, no unit).
It only reads the profile, so it is a pure function of the sample. -/
def extractTimestamp (s : ApiSample) : Except String (Option Int) :=
  match s.labels.find? (fun l => l.key = "end_timestamp_ns") with
  | some l =>
    if l.str.isSome then Except.error "timestamp label must be a number"
    else if l.num = 0 then Except.error "timestamp label must not be 0"
    else if l.num_unit.isSome then Except.error "timestamp label takes no unit"
    else Except.ok (some l.num)
  | none => Except.ok none

/-- Loop body of Profile::extract_sample_labels (mod.rs lines 301-342):
skips the timestamp label, interns key and value strings, dedups the
internal label, then validates the "local root span id" constraints
(at most one per sample, numeric, non-zero).  On a validation error the
interning and label insertions performed so far remain, exactly as the
Rust `&mut self` state does. -/
def processLabels (lrsiKey : Nat) (strs : List String) (labs : List Label)
    (lrsiSeen : Bool) (acc : List Nat) :
    List ApiLabel → (List String × List Label) × Except String (List Nat)
  | [] => ((strs, labs), Except.ok acc)
  | l :: rest =>
    if l.key = "end_timestamp_ns" then
      processLabels lrsiKey strs labs lrsiSeen acc rest
    else
      let rk := stInsert strs l.key
      match l.str with
      | some sv =>
        let rs := stInsert rk.2 sv
        let lab : Label := ⟨rk.1, LabelValue.str rs.1⟩
        let rl := dedupInsert labs lab
        if rk.1 = lrsiKey then
          if lrsiSeen then
            ((rs.2, rl.2), Except.error "only one label per sample can have the lrsi key")
          else
            ((rs.2, rl.2), Except.error "the lrsi label must be sent as a number")
        else
          processLabels lrsiKey rs.2 rl.2 lrsiSeen (acc ++ [rl.1]) rest
      | none =>
        let ru : Option Nat × List String :=
          match l.num_unit with
          | none => (none, rk.2)
          | some u => let r := stInsert rk.2 u; (some r.1, r.2)
        let lab : Label := ⟨rk.1, LabelValue.num l.num ru.1⟩
        let rl := dedupInsert labs lab
        if rk.1 = lrsiKey then
          if lrsiSeen then
            ((ru.2, rl.2), Except.error "only one label per sample can have the lrsi key")
          else if l.num = 0 then
            ((ru.2, rl.2), Except.error "the lrsi label must not be 0")
          else
            processLabels lrsiKey ru.2 rl.2 true (acc ++ [rl.1]) rest
        else
          processLabels lrsiKey ru.2 rl.2 lrsiSeen (acc ++ [rl.1]) rest

/-- Profile::extract_sample_labels (mod.rs lines 288-347): extract the
timestamp, validate and intern the remaining labels, then dedup the
sorted label set.  The label set is only inserted on success; on error
the partially mutated strings and labels remain in the profile. -/
def extractSampleLabels (p : Profile) (s : ApiSample) :
    Profile × Except String (Nat × Option Int) :=
  match extractTimestamp s with
  | Except.error e => (p, Except.error e)
  | Except.ok ts =>
    match processLabels p.lrsi_label p.strings p.labels false [] s.labels with
    | ((strs, labs), Except.error e) =>
      ({ p with strings := strs, labels := labs }, Except.error e)
    | ((strs, labs), Except.ok ids) =>
      let rset := dedupInsert p.label_sets (LabelSet.new ids)
      ({ p with strings := strs, labels := labs, label_sets := rset.2 },
        Except.ok (rset.1, ts))

/-- Profile::add_mapping (mod.rs lines 228-239). -/
def addMappingP (p : Profile) (m : ApiMapping) : Profile × Nat :=
  let rf := stInsert p.strings m.filename
  let rb := stInsert rf.2 m.build_id
  let rm := dedupInsert p.mappings
    ⟨m.memory_start, m.memory_limit, m.file_offset, rf.1, rb.1⟩
  ({ p with strings := rb.2, mappings := rm.2 }, rm.1)

/-- Profile::add_function (mod.rs lines 203-215). -/
def addFunctionP (p : Profile) (f : ApiFunction) : Profile × Nat :=
  let rn := stInsert p.strings f.name
  let rs := stInsert rn.2 f.system_name
  let rf := stInsert rs.2 f.filename
  let rr := dedupInsert p.functions ⟨rn.1, rs.1, rf.1, f.start_line⟩
  ({ p with strings := rf.2, functions := rr.2 }, rr.1)

/-- Profile::add_location (mod.rs lines 217-226). -/
def addLocationP (p : Profile) (l : ApiLocation) : Profile × Nat :=
  let r1 := addMappingP p l.mapping
  let r2 := addFunctionP r1.1 l.function
  let rl := dedupInsert r2.1.locations ⟨r1.2, r2.2, l.address, l.line⟩
  ({ r2.1 with locations := rl.2 }, rl.1)

/-- The location loop of Profile::add (mod.rs lines 251-255). -/
def addLocationsP (p : Profile) : List ApiLocation → Profile × List Nat
  | [] => (p, [])
  | l :: rest =>
    let r1 := addLocationP p l
    let r2 := addLocationsP r1.1 rest
    (r2.1, r1.2 :: r2.2)

/-- Modelled from the spec: `Observations::add` upsert into the
aggregated collection (the observation store's source file under
src/profiling/src/profile/internal is not in the tree).  Spec section
4.5: "if timestamp is present, append to (2); else upsert into (1),
element-wise summing values". -/
def obsUpsert (agg : List ((Nat × Nat) × List Int)) (k : Nat × Nat) (values : List Int) :
    List ((Nat × Nat) × List Int) :=
  match agg with
  | [] => [(k, values)]
  | (k0, v0) :: rest =>
    if k0 = k then (k0, List.zipWith (· + ·) v0 values) :: rest
    else (k0, v0) :: obsUpsert rest k values

/-- Modelled from the spec: `Observations::add` (spec section 4.5),
dispatching on the optional timestamp. -/
def obsAddP (p : Profile) (k : Nat × Nat) (ts : Option Int) (values : List Int) : Profile :=
  match ts with
  | some t => { p with obs_ts := p.obs_ts ++ [(k, t, values)] }
  | none => { p with obs_agg := obsUpsert p.obs_agg k values }

/-- Profile::add (mod.rs lines 241-261), additionally returning the
internal sample key (label-set id, stack-trace id) and timestamp on
success.  The error path returns the partially mutated profile, as the
Rust `&mut self` does. -/
def addSampleFull (p : Profile) (s : ApiSample) :
    Profile × Except String ((Nat × Nat) × Option Int) :=
  if s.values.length ≠ p.sample_types.length then
    (p, Except.error "expected as many values as sample types")
  else
    match extractSampleLabels p s with
    | (p1, Except.error e) => (p1, Except.error e)
    | (p1, Except.ok (lsId, ts)) =>
      let r2 := addLocationsP p1 s.locations
      let rst := dedupInsert r2.1.stack_traces ⟨r2.2⟩
      let p3 := { r2.1 with stack_traces := rst.2 }
      let key := (lsId, rst.1)
      (obsAddP p3 key ts s.values, Except.ok (key, ts))

/-- Profile::add as the caller sees it. -/
def addSample (p : Profile) (s : ApiSample) : Profile × Except String Unit :=
  let r := addSampleFull p s
  (r.1, r.2.map fun _ => ())

/-- Profile::add_endpoint (mod.rs lines 389-401): intern the endpoint
string and record span id to endpoint-string id. -/
def addEndpoint (p : Profile) (k : Nat) (e : String) : Profile :=
  let re := stInsert p.strings e
  { p with strings := re.2, endpoints_mappings := insertAssoc p.endpoints_mappings k re.1 }

/-- Profile::reset (mod.rs lines 359-385): re-extract the sample types
and period as strings, build a fresh profile via the builder with the
same limits, swap, and return the old profile.  `SystemTime::now()` for
a missing start time is passed in as `now`. -/
def resetP (p : Profile) (t : Option Int) (now : Int) : Profile × Profile :=
  let types := p.sample_types.map fun vt => (getStringP p vt.vtype, getStringP p vt.vunit)
  let per := p.period.map fun pr => (pr.1, getStringP p pr.2.vtype, getStringP p pr.2.vunit)
  (buildProfile types per (t.getD now), p)

/-! Serialization-side label translation and endpoint enrichment
(mod.rs lines 496-580, label.rs lines 79-97). -/

/-- Wire label with raw ids (pprof::Label as produced by
From<&Label> in label.rs lines 79-97). -/
structure PprofLabel where
  key : Nat
  str : Nat
  num : Int
  num_unit : Nat
deriving DecidableEq

/-- From<&Label> for pprof::Label (label.rs lines 79-97). -/
def Label.toPprof : Label → PprofLabel
  | ⟨k, LabelValue.str s⟩ => ⟨k, s, 0, 0⟩
  | ⟨k, LabelValue.num n u⟩ => ⟨k, 0, n, u.getD 0⟩

/-- Profile::get_label (mod.rs lines 496-500); invalid ids panic in the
source and are mapped to a default label here (never exercised by
reachable ids). -/
def getLabelP (p : Profile) (i : Nat) : Label :=
  p.labels.getD i ⟨0, LabelValue.str 0⟩

/-- Profile::get_label_set (mod.rs lines 502-506), same convention. -/
def getLabelSetP (p : Profile) (i : Nat) : LabelSet :=
  p.label_sets.getD i ⟨[]⟩

/-- The i64 to u64 transmute of the local root span id value
(mod.rs lines 528-538): two's-complement reinterpretation. -/
def toU64 (n : Int) : Nat :=
  (n % (2 ^ 64 : Int)).toNat

/-- Profile::get_endpoint_for_label (mod.rs lines 515-545). -/
def getEndpointForLabel (p : Profile) (l : Label) : Except String (Option Label) :=
  if l.key ≠ p.lrsi_label then
    Except.error "get_endpoint_for_label called on a label with the wrong key"
  else
    match l.value with
    | LabelValue.num n _ =>
      Except.ok ((lookupAssoc p.endpoints_mappings (toU64 n)).map
        fun v => ⟨p.endpoint_label, LabelValue.str v⟩)
    | LabelValue.str _ =>
      Except.error "the lrsi label value must be sent as a number"

/-- The find_map of Profile::get_endpoint_for_labels (mod.rs lines
547-555): the first label of the set whose key is "local root span id". -/
def findLrsi (p : Profile) (lsId : Nat) : Option Label :=
  ((getLabelSetP p lsId).sorted_labels.find?
    (fun id => (getLabelP p id).key = p.lrsi_label)).map (getLabelP p)

/-- Profile::get_endpoint_for_labels (mod.rs lines 547-561). -/
def getEndpointForLabels (p : Profile) (lsId : Nat) : Except String (Option Label) :=
  match findLrsi p lsId with
  | some l => getEndpointForLabel p l
  | none => Except.ok none

/-- Profile::translate_and_enrich_sample_labels (mod.rs lines 563-580):
the sample's own labels, then the synthesized endpoint label if any,
then the synthesized timestamp label if any. -/
def translateAndEnrich (p : Profile) (lsId : Nat) (ts : Option Int) :
    Except String (List PprofLabel) :=
  match getEndpointForLabels p lsId with
  | Except.error e => Except.error e
  | Except.ok ep =>
    Except.ok ((getLabelSetP p lsId).sorted_labels.map (fun id => (getLabelP p id).toPprof)
      ++ (ep.map Label.toPprof).toList
      ++ (ts.map fun t => Label.toPprof ⟨p.timestamp_key, LabelValue.num t none⟩).toList)

/-! Upscaling rules (mod.rs lines 410-444; the rule store itself is
modelled from the spec, section 4.6). -/

/-- Overlap of two offset lists as Boolean set intersection. -/
def offsetsIntersect (a b : List Nat) : Bool :=
  a.any fun x => b.any fun y => x = y

/-- Modelled from the spec: `UpscalingInfo::check_validity` (the api
module's source file is not in the tree).  Spec section 4.6: "For
Poisson, sum_offset and count_offset must each be in range and
sampling_distance ≠ 0.  For Proportional, scale is a finite positive
f64." -/
def UpscalingInfo.checkValidity : UpscalingInfo → Nat → Except String Unit
  | UpscalingInfo.proportional scale, _ =>
    if 0 < scale then Except.ok () else Except.error "scale must be positive"
  | UpscalingInfo.poisson s c d, n =>
    if s < n ∧ c < n ∧ d ≠ 0 then Except.ok () else Except.error "invalid poisson info"

/-- Modelled from the spec: `UpscalingRules::check_collisions` (the
upscaling module's source file under src/profiling/src/profile/internal
is not in the tree).  Spec section 4.6: "When adding a rule, the engine
rejects it if any existing rule sharing the same label key/value has
overlapping value offsets; by-value rules overlapping with by-label
rules also conflict", where the key pair (0,0) denotes by-value rules. -/
def checkCollisions (rules : List ((Nat × Nat) × List UpscalingRule))
    (newOffsets : List Nat) (nameId valueId : Nat) : Except String Unit :=
  let conflicts : List UpscalingRule → Bool :=
    fun rs => rs.any fun r => offsetsIntersect r.values_offset newOffsets
  if conflicts ((lookupAssoc rules (nameId, valueId)).getD []) then
    Except.error "collision with an existing rule on the same label"
  else if nameId = 0 ∧ valueId = 0 then
    if rules.any (fun kv => conflicts kv.2) then
      Except.error "by-value rule collides with an existing rule"
    else Except.ok ()
  else if conflicts ((lookupAssoc rules (0, 0)).getD []) then
    Except.error "rule collides with an existing by-value rule"
  else Except.ok ()

/-- Modelled from the spec: `UpscalingRules::add` appends the rule to
the list stored under its (label key id, label value id) pair. -/
def rulesAdd (rules : List ((Nat × Nat) × List UpscalingRule)) (nameId valueId : Nat)
    (r : UpscalingRule) : List ((Nat × Nat) × List UpscalingRule) :=
  match rules with
  | [] => [((nameId, valueId), [r])]
  | (k, rs) :: rest =>
    if k = (nameId, valueId) then (k, rs ++ [r]) :: rest
    else (k, rs) :: rulesAdd rest nameId valueId r

/-- Profile::add_upscaling_rule (mod.rs lines 410-444): bound-check the
offsets, intern the label name and value, sort the offsets ascending,
check collisions, check validity, then register the rule. -/
def addUpscalingRule (p : Profile) (offset_values : List Nat)
    (label_name label_value : String) (info : UpscalingInfo) :
    Profile × Except String Unit :=
  if ¬ (offset_values.all fun x => x < p.sample_types.length) then
    (p, Except.error "invalid offset")
  else
    let rn := stInsert p.strings label_name
    let rv := stInsert rn.2 label_value
    let p1 := { p with strings := rv.2 }
    let newOffsets := List.insertionSort (· ≤ ·) offset_values
    match checkCollisions p1.upscaling_rules newOffsets rn.1 rv.1 with
    | Except.error e => (p1, Except.error e)
    | Except.ok _ =>
      match info.checkValidity p1.sample_types.length with
      | Except.error e => (p1, Except.error e)
      | Except.ok _ =>
        ({ p1 with upscaling_rules :=
            rulesAdd p1.upscaling_rules rn.1 rv.1 ⟨newOffsets, info⟩ }, Except.ok ())

/-! Append-only allocation table (src/profiling/src/alloc/table.rs). -/

/-- Table::try_fetch (alloc/table.rs lines 75-85): the published length
is acquire-loaded and the offset must be strictly below it.  Returns the
fetched offset on success. -/
def tryFetch (published_len offset : Nat) : Except String Nat :=
  if offset < published_len then Except.ok offset
  else Except.error "table offset is out of bounds"

/-- Table::try_fetch_range (alloc/table.rs lines 87-103): u32
checked_add of offset and len, then the source's comparison
`end < table_len`.  Returns the (offset, len) slice descriptor on
success. -/
def tryFetchRange (published_len offset len : Nat) : Except String (Nat × Nat) :=
  if offset + len ≥ 2 ^ 32 then Except.error "table offset plus len overflowed"
  else if offset + len < published_len then Except.ok (offset, len)
  else Except.error "table offset is out of bounds"

/-- Byte-addressed model of the allocation table's backing region for an
element type of size `elemSize` bytes: `region` is the zero-initialized
byte store, `len` the number of published elements. -/
structure AllocTable where
  elemSize : Nat
  capElems : Nat
  region : List Nat
  len : Nat
deriving DecidableEq

/-- Write a byte list into the region starting at byte position `pos`. -/
def writeBytesAt (region : List Nat) (pos : Nat) : List Nat → List Nat
  | [] => region
  | b :: rest => writeBytesAt (region.set pos b) (pos + 1) rest

/-- Read back element number `i`: its `elemSize` bytes from the region. -/
def readElem (region : List Nat) (elemSize i : Nat) : List Nat :=
  (List.range elemSize).map fun j => region.getD (i * elemSize + j) 0

/-- Table::alloc_slice (alloc/table.rs lines 50-73), byte-level.  Each
item is its `elemSize`-byte representation.  The capacity check uses the
source's `offset > cap - (offset + items.len())` with u32 wrapping
subtraction; `none` models the "table is full" panic.  The memcpy is
given `items.len()` as its byte count, exactly as in the source, and the
function returns the table and the published borrowed slice of
`items.len()` elements read back from the region. -/
def allocSlice (t : AllocTable) (items : List (List Nat)) :
    Option (AllocTable × List (List Nat)) :=
  let offset := t.len
  let newLen := offset + items.length
  if (offset : Int) > ((t.capElems : Int) - (newLen : Int)) % (2 ^ 32 : Int) then none
  else
    let copied := items.flatten.take items.length
    let region := writeBytesAt t.region (offset * t.elemSize) copied
    let tNew : AllocTable := { t with region := region, len := newLen }
    some (tNew, (List.range items.length).map fun i => readElem region t.elemSize (offset + i))

/-! Deduplicating entity table (src/profiling/src/collections/identifiable/table.rs). -/

/-- Outcome of Table::get_id: the assertion panics, or the slot read is
past the initialized prefix (uninitialized memory), or a stored value. -/
inductive GetIdOutcome (T : Type) where
  | panicked
  | uninit
  | stored (t : T)
deriving DecidableEq

/-- Table::get_id (identifiable/table.rs lines 79-93): asserts
`offset <= len` where `len` is the number of inserted entities, then
reads the slot at `offset` unconditionally. -/
def tableGetId {T : Type} (entries : List T) (offset : Nat) : GetIdOutcome T :=
  if offset ≤ entries.length then
    match entries.get? offset with
    | some v => GetIdOutcome.stored v
    | none => GetIdOutcome.uninit
  else GetIdOutcome.panicked

/-- Ok-test for Except, used in theorem statements. -/
def exceptIsOk : Except ε α → Bool
  | Except.ok _ => true
  | Except.error _ => false

/-! Theorems for the claims. -/

/-- Claim C2: for every profile and string, interning twice returns the
same id; interning the empty string returns id 0 in every profile whose
string table holds the empty string at the head, and in particular in a
freshly constructed profile, where the empty string is inserted first. -/
theorem c2_intern_total (p : Profile) (s : String) (t : Int) :
    (internP p s).1 = (internP (internP p s).2 s).1
  ∧ (p.strings.head? = some "" → (internP p "").1 = 0)
  ∧ ((profileNew t).strings.head? = some "" ∧ (internP (profileNew t) "").1 = 0) := by
  refine ⟨?_, ?_, rfl, rfl⟩
  · show (dedupInsert p.strings s).1 = (dedupInsert (dedupInsert p.strings s).2 s).1
    rw [dedupInsert_twice]
  · intro h
    show (dedupInsert p.strings "").1 = 0
    cases hps : p.strings with
    | nil => simp [hps] at h
    | cons x rest =>
      have hx : x = "" := by simpa [hps] using h
      rw [dedupInsert_of_found (i := 0) (by simp [listIdxOf, hx])]

theorem c2_witness : (internP (profileNew 0) "").1 = 0 :=
  (c2_intern_total (profileNew 0) "" 0).2.1 rfl

/-- Claim C4 (code bug): `try_fetch_range` rejects a fetch whose end
equals the published length (the source compares `end < table_len`,
not `≤`), although the spec requires `i + n ≤ published_len` to
succeed, and although `try_fetch` accepts that same final element: on a
table of published length 1, try_fetch_range(0, 1) errs while
try_fetch(0) succeeds. -/
theorem c4_fetch_range_end_at_len_errs :
    tryFetchRange 1 0 1 = Except.error "table offset is out of bounds"
  ∧ tryFetch 1 0 = Except.ok 0 := by
  exact ⟨rfl, rfl⟩

/-- Claim C5 (code bug): `alloc_slice` passes `items.len()` to memcpy as
the byte count, so for any element type wider than one byte only
`items.len()` bytes are copied instead of all the elements.  For 2-byte
elements `[0x0101, 0x0202]` in an empty table, the returned published
slice is `[0x0101, 0x0000]`, not the input. -/
theorem c5_alloc_slice_truncates :
    (allocSlice ⟨2, 4, List.replicate 8 0, 0⟩ [[1, 1], [2, 2]]).map Prod.snd
      = some [[1, 1], [0, 0]]
  ∧ [[1, 1], [0, 0]] ≠ [[1, 1], [2, 2]] := by
  exact ⟨by decide, by decide⟩

/-- Claim C6: LabelSet construction sorts the label ids ascending, so
any permutation of the same label ids yields the same LabelSet and the
identical LabelSetId from the deduplicating set. -/
theorem c6_label_set_canonical (v1 v2 : List Nat) (h : v1.Perm v2) :
    LabelSet.new v1 = LabelSet.new v2
  ∧ ∀ sets : List LabelSet,
      (dedupInsert sets (LabelSet.new v1)).1 = (dedupInsert sets (LabelSet.new v2)).1 := by
  have hs : List.insertionSort (· ≤ ·) v1 = List.insertionSort (· ≤ ·) v2 :=
    List.eq_of_perm_of_sorted
      (((List.perm_insertionSort _ v1).trans h).trans (List.perm_insertionSort _ v2).symm)
      (List.sorted_insertionSort _ v1) (List.sorted_insertionSort _ v2)
  constructor
  · unfold LabelSet.new
    rw [hs]
  · intro sets
    unfold LabelSet.new
    rw [hs]

theorem c6_witness :
    LabelSet.new [2, 1] = LabelSet.new [1, 2]
  ∧ (dedupInsert [] (LabelSet.new [2, 1])).1 = (dedupInsert [] (LabelSet.new [1, 2])).1 :=
  ⟨(c6_label_set_canonical [2, 1] [1, 2] (List.Perm.swap 1 2 [])).1,
   (c6_label_set_canonical [2, 1] [1, 2] (List.Perm.swap 1 2 [])).2 []⟩

/-- Claim C10: Table::get_id's bounds assertion only requires the id's
offset to be at most the number of inserted entities: for a table
holding n entities, offset = n passes the assertion and proceeds to
read the uninitialized slot; only offsets strictly greater than n
panic. -/
theorem c10_get_id_bounds {T : Type} (entries : List T) (offset : Nat) :
    (offset ≤ entries.length → tableGetId entries offset ≠ GetIdOutcome.panicked)
  ∧ (offset = entries.length → tableGetId entries offset = GetIdOutcome.uninit)
  ∧ (entries.length < offset → tableGetId entries offset = GetIdOutcome.panicked) := by
  refine ⟨?_, ?_, ?_⟩
  · intro h
    unfold tableGetId
    rw [if_pos h]
    cases entries.get? offset <;> simp
  · intro h
    subst h
    unfold tableGetId
    rw [if_pos le_rfl, List.get?_eq_none.mpr le_rfl]
  · intro h
    unfold tableGetId
    rw [if_neg (by omega)]

theorem c10_witness :
    tableGetId [5] 1 = GetIdOutcome.uninit ∧ tableGetId [5] 2 = GetIdOutcome.panicked :=
  ⟨(c10_get_id_bounds [5] 1).2.1 rfl, (c10_get_id_bounds [5] 2).2.2 (by decide)⟩

/-- Agreement of two profile states on everything except the interned
strings and the deduplicated label table. -/
def EqExceptInterned (p q : Profile) : Prop :=
  q.endpoints_mappings = p.endpoints_mappings ∧
  q.endpoints_stats = p.endpoints_stats ∧
  q.lrsi_label = p.lrsi_label ∧
  q.endpoint_label = p.endpoint_label ∧
  q.functions = p.functions ∧
  q.label_sets = p.label_sets ∧
  q.locations = p.locations ∧
  q.mappings = p.mappings ∧
  q.obs_agg = p.obs_agg ∧
  q.obs_ts = p.obs_ts ∧
  q.period = p.period ∧
  q.sample_types = p.sample_types ∧
  q.stack_traces = p.stack_traces ∧
  q.start_time = p.start_time ∧
  q.timestamp_key = p.timestamp_key ∧
  q.upscaling_rules = p.upscaling_rules

theorem eqExceptInterned_refl (p : Profile) : EqExceptInterned p p :=
  ⟨rfl, rfl, rfl, rfl, rfl, rfl, rfl, rfl, rfl, rfl, rfl, rfl, rfl, rfl, rfl, rfl⟩

/-- A failing extract_sample_labels only mutates strings and labels. -/
theorem extractSampleLabels_err_shape (p : Profile) (s : ApiSample)
    (h : exceptIsOk (extractSampleLabels p s).2 = false) :
    EqExceptInterned p (extractSampleLabels p s).1 := by
  unfold extractSampleLabels at *
  cases hts : extractTimestamp s with
  | error e => exact eqExceptInterned_refl p
  | ok ts =>
    rw [hts] at h
    rcases hpl : processLabels p.lrsi_label p.strings p.labels false [] s.labels
      with ⟨⟨strs, labs⟩, r⟩
    rw [hpl] at h
    cases r with
    | error e =>
      exact ⟨rfl, rfl, rfl, rfl, rfl, rfl, rfl, rfl, rfl, rfl, rfl, rfl, rfl, rfl, rfl, rfl⟩
    | ok ids => simp [exceptIsOk] at h

/-- extract_sample_labels never touches the observation store. -/
theorem extractSampleLabels_obs (p : Profile) (s : ApiSample) :
    (extractSampleLabels p s).1.obs_agg = p.obs_agg := by
  unfold extractSampleLabels
  cases hts : extractTimestamp s with
  | error e => rfl
  | ok ts =>
    rcases hpl : processLabels p.lrsi_label p.strings p.labels false [] s.labels
      with ⟨⟨strs, labs⟩, r⟩
    cases r <;> rfl

/-- The location loop never touches the observation store. -/
theorem addLocationsP_obs (ls : List ApiLocation) (p : Profile) :
    (addLocationsP p ls).1.obs_agg = p.obs_agg := by
  induction ls generalizing p with
  | nil => rfl
  | cons l rest ih =>
    show (addLocationsP (addLocationP p l).1 rest).1.obs_agg = p.obs_agg
    rw [ih]
    rfl

/-- A successful add without a timestamp upserts exactly the computed
key with the sample's values into the aggregated observations. -/
theorem addSampleFull_ok_obs (p : Profile) (s : ApiSample) (k : Nat × Nat)
    (h : (addSampleFull p s).2 = Except.ok (k, none)) :
    (addSampleFull p s).1.obs_agg = obsUpsert p.obs_agg k s.values := by
  unfold addSampleFull at *
  by_cases harity : s.values.length ≠ p.sample_types.length
  · rw [if_pos harity] at h
    exact absurd h (by simp)
  · rw [if_neg harity] at h ⊢
    rcases hex : extractSampleLabels p s with ⟨p1, r⟩
    rw [hex] at h
    cases r with
    | error e => simp at h
    | ok v =>
      obtain ⟨lsId, ts⟩ := v
      simp only [Except.ok.injEq, Prod.mk.injEq] at h
      obtain ⟨hk, hts⟩ := h
      subst hts
      show (obsAddP _ _ none s.values).obs_agg = obsUpsert p.obs_agg k s.values
      unfold obsAddP
      have h1 : p1.obs_agg = p.obs_agg := by
        have h2 := extractSampleLabels_obs p s
        rw [hex] at h2
        exact h2
      show obsUpsert (addLocationsP p1 s.locations).1.obs_agg _ s.values
          = obsUpsert p.obs_agg k s.values
      rw [addLocationsP_obs, h1, hk]

/-- Claim C1: adding two samples that resolve to the same stack trace
and sorted label set, neither carrying an end_timestamp_ns label (so
the extracted timestamp is none), into a profile with no aggregated
observations, produces exactly one aggregated observation whose value
vector is the element-wise sum of the two samples' value vectors. -/
theorem c1_aggregation (p : Profile) (s1 s2 : ApiSample) (k : Nat × Nat)
    (h0 : p.obs_agg = [])
    (h1 : (addSampleFull p s1).2 = Except.ok (k, none))
    (h2 : (addSampleFull (addSampleFull p s1).1 s2).2 = Except.ok (k, none)) :
    (addSampleFull (addSampleFull p s1).1 s2).1.obs_agg
      = [(k, List.zipWith (· + ·) s1.values s2.values)] := by
  have e1 := addSampleFull_ok_obs p s1 k h1
  have e2 := addSampleFull_ok_obs (addSampleFull p s1).1 s2 k h2
  rw [e2, e1, h0]
  simp [obsUpsert]

def witProfile : Profile := buildProfile [("wall-time", "nanoseconds")] none 0

def witS1 : ApiSample := ⟨[], [2], []⟩

def witS2 : ApiSample := ⟨[], [3], []⟩

theorem c1_witness :
    (addSampleFull (addSampleFull witProfile witS1).1 witS2).1.obs_agg = [((0, 0), [5])] :=
  (c1_aggregation witProfile witS1 witS2 (0, 0) rfl rfl rfl).trans (by decide)

/-- The two-local-root-span-id sample of the repository's own test
local_root_span_id_label_cannot_occur_more_than_once. -/
def badLrsiSample : ApiSample :=
  ⟨[], [10000],
   [⟨"local root span id", none, 5738080760940355267, none⟩,
    ⟨"local root span id", none, 8182855815056056749, none⟩]⟩

/-- Claim C3 counterexample: a sample with two "local root span id"
labels makes Profile::add fail, but the profile is NOT left without
inserted labels: both labels were deduplicated into the label table
before the validation fired, so the label table grew from 0 to 2
entries.  Only interned strings were claimed to remain. -/
theorem c3_counterexample :
    exceptIsOk (addSample witProfile badLrsiSample).2 = false
  ∧ witProfile.labels.length = 0
  ∧ (addSample witProfile badLrsiSample).1.labels.length = 2 := by
  exact ⟨rfl, rfl, rfl⟩

/-- Claim C3 as amended: whenever Profile::add fails validation, it
returns the error and leaves the profile unchanged apart from interned
strings and labels deduplicated into the label table: no observation,
label set, stack trace, function, location or mapping is inserted. -/
theorem c3_amended (p : Profile) (s : ApiSample) (e : String)
    (h : (addSample p s).2 = Except.error e) :
    EqExceptInterned p (addSample p s).1 := by
  unfold addSample addSampleFull at *
  by_cases harity : s.values.length ≠ p.sample_types.length
  · rw [if_pos harity]
    exact eqExceptInterned_refl p
  · rw [if_neg harity] at h ⊢
    rcases hex : extractSampleLabels p s with ⟨p1, r⟩
    rw [hex] at h
    cases r with
    | error e2 =>
      have hshape := extractSampleLabels_err_shape p s (by rw [hex]; rfl)
      rw [hex] at hshape
      exact hshape
    | ok v =>
      obtain ⟨lsId, ts⟩ := v
      simp [Except.map] at h

theorem c3_witness :
    EqExceptInterned witProfile (addSample witProfile badLrsiSample).1 :=
  c3_amended witProfile badLrsiSample
    "only one label per sample can have the lrsi key" rfl

theorem get?_append_of_lt {α : Type _} {xs : List α} (u : List α) {i : Nat}
    (h : i < xs.length) : (xs ++ u).get? i = xs.get? i := by
  induction xs generalizing i with
  | nil => simp at h
  | cons x xs ih =>
    cases i with
    | zero => simp
    | succ j =>
      simp only [List.cons_append, List.get?_cons_succ]
      exact ih (by simpa using Nat.lt_of_succ_lt_succ h)

theorem stInsert_ext (t : List String) (s : String) : ∃ u, (stInsert t s).2 = t ++ u :=
  dedupInsert_ext t s

theorem stInsert_fst_lt (t : List String) (s : String) :
    (stInsert t s).1 < (stInsert t s).2.length :=
  dedupInsert_fst_lt t s

theorem stInsert_getD (t : List String) (s : String) :
    (stInsert t s).2.getD (stInsert t s).1 "" = s :=
  dedupInsert_getD t s ""

/-- Characterization of the sample-type interning pass: the string table
is only extended, the assigned ids are in range, and resolving them
yields back exactly the input strings. -/
theorem internTypes_spec (types : List (String × String)) (strings : List String) :
    (∃ u, (internTypes strings types).1 = strings ++ u)
  ∧ (∀ vt ∈ (internTypes strings types).2,
      vt.vtype < (internTypes strings types).1.length
    ∧ vt.vunit < (internTypes strings types).1.length)
  ∧ (internTypes strings types).2.map
      (fun vt => ((internTypes strings types).1.getD vt.vtype "",
                  (internTypes strings types).1.getD vt.vunit ""))
    = types := by
  induction types generalizing strings with
  | nil =>
    refine ⟨⟨[], by simp [internTypes]⟩, ?_, ?_⟩
    · intro vt hvt
      simp [internTypes] at hvt
    · simp [internTypes]
  | cons tu rest ih =>
    obtain ⟨ty, un⟩ := tu
    obtain ⟨⟨u3, hu3⟩, hbound, hmap⟩ := ih (stInsert (stInsert strings ty).2 un).2
    obtain ⟨u1, hu1⟩ := stInsert_ext strings ty
    obtain ⟨u2, hu2⟩ := stInsert_ext (stInsert strings ty).2 un
    have hshape :
        internTypes strings ((ty, un) :: rest)
          = ((internTypes (stInsert (stInsert strings ty).2 un).2 rest).1,
             ⟨(stInsert strings ty).1, (stInsert (stInsert strings ty).2 un).1⟩
               :: (internTypes (stInsert (stInsert strings ty).2 un).2 rest).2) := rfl
    rw [hshape]
    have hty_lt : (stInsert strings ty).1 < (stInsert strings ty).2.length :=
      stInsert_fst_lt strings ty
    have hun_lt :
        (stInsert (stInsert strings ty).2 un).1
          < (stInsert (stInsert strings ty).2 un).2.length :=
      stInsert_fst_lt (stInsert strings ty).2 un
    have hty_lt2 : (stInsert strings ty).1 < (stInsert (stInsert strings ty).2 un).2.length := by
      rw [hu2, List.length_append]
      omega
    refine ⟨?_, ?_, ?_⟩
    · refine ⟨u1 ++ (u2 ++ u3), ?_⟩
      rw [hu3, hu2, hu1]
      simp [List.append_assoc]
    · intro vt hvt
      rcases List.mem_cons.mp hvt with hvt1 | hvt2
      · subst hvt1
        constructor
        · show (stInsert strings ty).1 < _
          rw [hu3, List.length_append]
          omega
        · show (stInsert (stInsert strings ty).2 un).1 < _
          rw [hu3, List.length_append]
          omega
      · exact hbound vt hvt2
    · simp only [List.map_cons, hmap, List.cons.injEq, and_true, Prod.mk.injEq]
      refine ⟨?_, ?_⟩
      · rw [hu3, getD_append_left u3 "" hty_lt2, hu2,
          getD_append_left u2 "" hty_lt]
        exact stInsert_getD strings ty
      · rw [hu3, getD_append_left u3 "" hun_lt]
        exact stInsert_getD (stInsert strings ty).2 un

/-- Characterization of ProfileBuilder::build: the built profile has
empty collections, the requested start time, the empty string at id 0,
and sample types and period that resolve to the requested strings. -/
theorem buildProfile_spec (types : List (String × String))
    (periodApi : Option (Int × String × String)) (t : Int) :
    (buildProfile types periodApi t).obs_agg = []
  ∧ (buildProfile types periodApi t).obs_ts = []
  ∧ (buildProfile types periodApi t).functions = []
  ∧ (buildProfile types periodApi t).labels = []
  ∧ (buildProfile types periodApi t).label_sets = []
  ∧ (buildProfile types periodApi t).locations = []
  ∧ (buildProfile types periodApi t).mappings = []
  ∧ (buildProfile types periodApi t).stack_traces = []
  ∧ (buildProfile types periodApi t).endpoints_mappings = []
  ∧ (buildProfile types periodApi t).endpoints_stats = []
  ∧ (buildProfile types periodApi t).upscaling_rules = []
  ∧ (buildProfile types periodApi t).start_time = t
  ∧ (buildProfile types periodApi t).strings.get? 0 = some ""
  ∧ (buildProfile types periodApi t).sample_types.map
      (fun vt => (getStringP (buildProfile types periodApi t) vt.vtype,
                  getStringP (buildProfile types periodApi t) vt.vunit))
    = types
  ∧ (buildProfile types periodApi t).period.map
      (fun pr => (pr.1, getStringP (buildProfile types periodApi t) pr.2.vtype,
                  getStringP (buildProfile types periodApi t) pr.2.vunit))
    = periodApi := by
  obtain ⟨⟨uT, huT⟩, hbound, hmap⟩ := internTypes_spec types (profileNew t).strings
  cases periodApi with
  | none =>
    refine ⟨rfl, rfl, rfl, rfl, rfl, rfl, rfl, rfl, rfl, rfl, rfl, rfl, ?_, ?_, rfl⟩
    · show (internTypes (profileNew t).strings types).1.get? 0 = some ""
      rw [huT]
      exact get?_append_of_lt uT (by simp [profileNew, stringsNew, stInsert, dedupInsert, listIdxOf])
    · exact hmap
  | some per =>
    obtain ⟨v, ty, un⟩ := per
    obtain ⟨u1, hu1⟩ :=
      stInsert_ext (internTypes (profileNew t).strings types).1 ty
    obtain ⟨u2, hu2⟩ :=
      stInsert_ext (stInsert (internTypes (profileNew t).strings types).1 ty).2 un
    have hq :
        (buildProfile types (some (v, ty, un)) t).strings
          = (stInsert (stInsert (internTypes (profileNew t).strings types).1 ty).2 un).2 := rfl
    have h1 : getStringP (buildProfile types (some (v, ty, un)) t)
        (stInsert (internTypes (profileNew t).strings types).1 ty).1 = ty := by
      show (buildProfile types (some (v, ty, un)) t).strings.getD _ "" = ty
      rw [hq, hu2,
        getD_append_left u2 ""
          (stInsert_fst_lt (internTypes (profileNew t).strings types).1 ty)]
      exact stInsert_getD (internTypes (profileNew t).strings types).1 ty
    have h2 : getStringP (buildProfile types (some (v, ty, un)) t)
        (stInsert (stInsert (internTypes (profileNew t).strings types).1 ty).2 un).1 = un := by
      show (buildProfile types (some (v, ty, un)) t).strings.getD _ "" = un
      rw [hq]
      exact stInsert_getD (stInsert (internTypes (profileNew t).strings types).1 ty).2 un
    refine ⟨rfl, rfl, rfl, rfl, rfl, rfl, rfl, rfl, rfl, rfl, rfl, rfl, ?_, ?_, ?_⟩
    · rw [hq, hu2, hu1, huT]
      rw [List.append_assoc, List.append_assoc]
      exact get?_append_of_lt _ (by simp [profileNew, stringsNew, stInsert, dedupInsert, listIdxOf])
    · have hcong : List.map
          (fun vt => ((buildProfile types (some (v, ty, un)) t).strings.getD vt.vtype "",
                      (buildProfile types (some (v, ty, un)) t).strings.getD vt.vunit ""))
          (internTypes (profileNew t).strings types).2
        = List.map
          (fun vt => ((internTypes (profileNew t).strings types).1.getD vt.vtype "",
                      (internTypes (profileNew t).strings types).1.getD vt.vunit ""))
          (internTypes (profileNew t).strings types).2 := by
        apply List.map_congr_left
        intro vt hvt
        obtain ⟨hb1, hb2⟩ := hbound vt hvt
        rw [hq, hu2, hu1, List.append_assoc]
        rw [getD_append_left (u1 ++ u2) "" hb1, getD_append_left (u1 ++ u2) "" hb2]
      exact hcong.trans hmap
    · show some (v, getStringP _ (stInsert (internTypes (profileNew t).strings types).1 ty).1,
          getStringP _ (stInsert (stInsert (internTypes (profileNew t).strings types).1 ty).2 un).1)
        = some (v, ty, un)
      rw [h1, h2]

/-- Claim C8: after reset(t), the new profile's sample types and period
are string-equal to the old ones, every other collection is empty, the
empty string is still at id 0, the start time equals t, and the
previous profile is returned to the caller. -/
theorem c8_reset (p : Profile) (t now : Int) :
    (resetP p (some t) now).2 = p
  ∧ (resetP p (some t) now).1.start_time = t
  ∧ (resetP p (some t) now).1.obs_agg = []
  ∧ (resetP p (some t) now).1.obs_ts = []
  ∧ (resetP p (some t) now).1.functions = []
  ∧ (resetP p (some t) now).1.labels = []
  ∧ (resetP p (some t) now).1.label_sets = []
  ∧ (resetP p (some t) now).1.locations = []
  ∧ (resetP p (some t) now).1.mappings = []
  ∧ (resetP p (some t) now).1.stack_traces = []
  ∧ (resetP p (some t) now).1.endpoints_mappings = []
  ∧ (resetP p (some t) now).1.endpoints_stats = []
  ∧ (resetP p (some t) now).1.upscaling_rules = []
  ∧ (resetP p (some t) now).1.strings.get? 0 = some ""
  ∧ (resetP p (some t) now).1.sample_types.map
      (fun vt => (getStringP (resetP p (some t) now).1 vt.vtype,
                  getStringP (resetP p (some t) now).1 vt.vunit))
    = p.sample_types.map (fun vt => (getStringP p vt.vtype, getStringP p vt.vunit))
  ∧ (resetP p (some t) now).1.period.map
      (fun pr => (pr.1, getStringP (resetP p (some t) now).1 pr.2.vtype,
                  getStringP (resetP p (some t) now).1 pr.2.vunit))
    = p.period.map (fun pr => (pr.1, getStringP p pr.2.vtype, getStringP p pr.2.vunit)) := by
  have hb := buildProfile_spec
    (p.sample_types.map fun vt => (getStringP p vt.vtype, getStringP p vt.vunit))
    (p.period.map fun pr => (pr.1, getStringP p pr.2.vtype, getStringP p pr.2.vunit)) t
  obtain ⟨h1, h2, h3, h4, h5, h6, h7, h8, h9, h10, h11, h12, h13, h14, h15⟩ := hb
  exact ⟨rfl, h12, h1, h2, h3, h4, h5, h6, h7, h8, h9, h10, h11, h13, h14, h15⟩

/-- The label found by get_endpoint_for_labels carries the lrsi key. -/
theorem findLrsi_key (p : Profile) (lsId : Nat) (l : Label)
    (h : findLrsi p lsId = some l) : l.key = p.lrsi_label := by
  unfold findLrsi at h
  cases hf : (getLabelSetP p lsId).sorted_labels.find?
      (fun id => (getLabelP p id).key = p.lrsi_label) with
  | none => rw [hf] at h; simp at h
  | some id =>
    rw [hf] at h
    simp only [Option.map_some', Option.some.injEq] at h
    have hp := List.find?_some hf
    rw [← h]
    simpa using hp

/-- Claim C7 counterexample: the claim's second half says serialized
samples without a matching "local root span id" label carry no
"trace endpoint" label, but a sample may carry a user-supplied label
with the key "trace endpoint": here a profile whose only sample has the
label ("trace endpoint" -> "foo") and no "local root span id" label at
all serializes that sample with a label whose key is the
"trace endpoint" string (id 2). -/
theorem c7_counterexample :
    (addSampleFull (buildProfile [("samples", "count")] none 0)
        ⟨[], [1], [⟨"trace endpoint", some "foo", 0, none⟩]⟩).2
      = Except.ok ((0, 0), none)
  ∧ findLrsi (addEndpoint (addSampleFull (buildProfile [("samples", "count")] none 0)
        ⟨[], [1], [⟨"trace endpoint", some "foo", 0, none⟩]⟩).1 99 "bar") 0 = none
  ∧ translateAndEnrich (addEndpoint (addSampleFull (buildProfile [("samples", "count")] none 0)
        ⟨[], [1], [⟨"trace endpoint", some "foo", 0, none⟩]⟩).1 99 "bar") 0 none
      = Except.ok [⟨2, 6, 0, 0⟩]
  ∧ getStringP (addEndpoint (addSampleFull (buildProfile [("samples", "count")] none 0)
        ⟨[], [1], [⟨"trace endpoint", some "foo", 0, none⟩]⟩).1 99 "bar") 2
      = "trace endpoint" := by
  exact ⟨rfl, rfl, rfl, rfl⟩

/-- Claim C7 as amended: after add_endpoint(k, e), a serialized sample
whose label set's "local root span id" label is numeric with value k
(as u64) carries an additional synthesized "trace endpoint" string
label equal to e, appended after its own labels; and a sample whose
label set has no "local root span id" label, or whose numeric value
maps to no recorded endpoint, gets nothing appended by the enrichment:
its serialized labels are exactly the translation of its own label set
(which may itself contain user-supplied labels, even ones keyed
"trace endpoint") plus the optional timestamp label. -/
theorem c7_endpoint_enrichment (p : Profile) (k : Nat) (e : String) (lsId : Nat)
    (ts : Option Int) :
    (∀ (l : Label) (n : Int) (u : Option Nat),
      findLrsi (addEndpoint p k e) lsId = some l →
      l.value = LabelValue.num n u →
      toU64 n = k →
      translateAndEnrich (addEndpoint p k e) lsId ts
        = Except.ok
            ((getLabelSetP (addEndpoint p k e) lsId).sorted_labels.map
               (fun id => (getLabelP (addEndpoint p k e) id).toPprof)
             ++ [⟨(addEndpoint p k e).endpoint_label, (stInsert p.strings e).1, 0, 0⟩]
             ++ (ts.map fun t =>
                  Label.toPprof ⟨(addEndpoint p k e).timestamp_key,
                    LabelValue.num t none⟩).toList)
        ∧ getStringP (addEndpoint p k e) (stInsert p.strings e).1 = e)
  ∧ (findLrsi p lsId = none →
      translateAndEnrich p lsId ts
        = Except.ok
            ((getLabelSetP p lsId).sorted_labels.map (fun id => (getLabelP p id).toPprof)
             ++ (ts.map fun t =>
                  Label.toPprof ⟨p.timestamp_key, LabelValue.num t none⟩).toList))
  ∧ (∀ (l : Label) (n : Int) (u : Option Nat),
      findLrsi p lsId = some l →
      l.value = LabelValue.num n u →
      lookupAssoc p.endpoints_mappings (toU64 n) = none →
      translateAndEnrich p lsId ts
        = Except.ok
            ((getLabelSetP p lsId).sorted_labels.map (fun id => (getLabelP p id).toPprof)
             ++ (ts.map fun t =>
                  Label.toPprof ⟨p.timestamp_key, LabelValue.num t none⟩).toList)) := by
  refine ⟨?_, ?_, ?_⟩
  · intro l n u hfind hval hk
    have hkey : l.key = (addEndpoint p k e).lrsi_label :=
      findLrsi_key (addEndpoint p k e) lsId l hfind
    have hred : getEndpointForLabels (addEndpoint p k e) lsId
        = getEndpointForLabel (addEndpoint p k e) l := by
      unfold getEndpointForLabels
      rw [hfind]
    have hep : getEndpointForLabels (addEndpoint p k e) lsId
        = Except.ok (some ⟨(addEndpoint p k e).endpoint_label, LabelValue.str
            (stInsert p.strings e).1⟩) := by
      rw [hred]
      unfold getEndpointForLabel
      rw [if_neg (by simp [hkey])]
      cases l with
      | mk lk lv =>
        cases hval
        show Except.ok ((lookupAssoc (addEndpoint p k e).endpoints_mappings (toU64 n)).map _)
          = _
        have hm : (addEndpoint p k e).endpoints_mappings
            = insertAssoc p.endpoints_mappings k (stInsert p.strings e).1 := rfl
        rw [hm, hk, lookupAssoc_insertAssoc_self]
        rfl
    constructor
    · unfold translateAndEnrich
      rw [hep]
      rfl
    · show (addEndpoint p k e).strings.getD (stInsert p.strings e).1 "" = e
      have hs : (addEndpoint p k e).strings = (stInsert p.strings e).2 := rfl
      rw [hs]
      exact stInsert_getD p.strings e
  · intro hnone
    unfold translateAndEnrich getEndpointForLabels
    rw [hnone]
    simp
  · intro l n u hfind hval hnomap
    have hkey : l.key = p.lrsi_label := findLrsi_key p lsId l hfind
    have hred : getEndpointForLabels p lsId = getEndpointForLabel p l := by
      unfold getEndpointForLabels
      rw [hfind]
    have hep : getEndpointForLabels p lsId = Except.ok none := by
      rw [hred]
      unfold getEndpointForLabel
      rw [if_neg (by simp [hkey])]
      cases l with
      | mk lk lv =>
        cases hval
        show Except.ok ((lookupAssoc p.endpoints_mappings (toU64 n)).map _) = _
        rw [hnomap]
        rfl
    unfold translateAndEnrich
    rw [hep]
    simp

/-- Profile used by the C7 witness: one sample carrying a local root
span id of 10 and an unrelated label, then add_endpoint(10, "my
endpoint"). -/
def witEndpointProfile : Profile :=
  addEndpoint
    (addSampleFull (buildProfile [("samples", "count")] none 0)
      ⟨[], [1], [⟨"local root span id", none, 10, none⟩, ⟨"other", some "test", 0, none⟩]⟩).1
    10 "my endpoint"

theorem c7_witness :
    translateAndEnrich witEndpointProfile 0 none
      = Except.ok [⟨1, 0, 10, 0⟩, ⟨6, 7, 0, 0⟩, ⟨2, 8, 0, 0⟩]
  ∧ getStringP witEndpointProfile 8 = "my endpoint" := by
  have h := (c7_endpoint_enrichment
    (addSampleFull (buildProfile [("samples", "count")] none 0)
      ⟨[], [1], [⟨"local root span id", none, 10, none⟩, ⟨"other", some "test", 0, none⟩]⟩).1
    10 "my endpoint" 0 none).1 ⟨1, LabelValue.num 10 none⟩ 10 none rfl rfl rfl
  exact ⟨h.1.trans (by decide), h.2⟩

/-! Helper lemmas for the upscaling-rule claim. -/

theorem head?_append_of_head {α : Type _} {t : List α} (u : List α) {a : α}
    (h : t.head? = some a) : (t ++ u).head? = some a := by
  cases t with
  | nil => simp at h
  | cons x xs => simpa using h

theorem stInsert_head_empty {t : List String} (h : t.head? = some "") :
    stInsert t "" = (0, t) := by
  cases t with
  | nil => simp at h
  | cons x xs =>
    have hx : x = "" := by simpa using h
    exact dedupInsert_of_found (by simp [listIdxOf, hx])

/-- Re-interning either string of an interned pair finds the old ids and
leaves the table unchanged. -/
theorem stInsert_stable_pair (t : List String) (a b : String) :
    stInsert (stInsert (stInsert t a).2 b).2 a
      = ((stInsert t a).1, (stInsert (stInsert t a).2 b).2)
  ∧ stInsert (stInsert (stInsert t a).2 b).2 b
      = ((stInsert (stInsert t a).2 b).1, (stInsert (stInsert t a).2 b).2) := by
  constructor
  · obtain ⟨u, hu⟩ := stInsert_ext (stInsert t a).2 b
    rw [hu]
    exact dedupInsert_of_found (listIdxOf_append_left (dedupInsert_idx t a) u)
  · exact dedupInsert_of_found (dedupInsert_idx (stInsert t a).2 b)

theorem offsetsIntersect_iff (a b : List Nat) :
    offsetsIntersect a b = true ↔ ∃ x, x ∈ a ∧ x ∈ b := by
  constructor
  · intro h
    simp only [offsetsIntersect, List.any_eq_true, decide_eq_true_eq] at h
    obtain ⟨x, hxa, y, hyb, hxy⟩ := h
    exact ⟨x, hxa, hxy ▸ hyb⟩
  · rintro ⟨x, hxa, hxb⟩
    simp only [offsetsIntersect, List.any_eq_true, decide_eq_true_eq]
    exact ⟨x, hxa, x, hxb, rfl⟩

theorem offsetsIntersect_sorted_true {o1 o2 : List Nat}
    (h : ∃ x, x ∈ o1 ∧ x ∈ o2) :
    offsetsIntersect (List.insertionSort (· ≤ ·) o1) (List.insertionSort (· ≤ ·) o2)
      = true := by
  rw [offsetsIntersect_iff]
  obtain ⟨x, h1, h2⟩ := h
  exact ⟨x, (List.mem_insertionSort _).mpr h1, (List.mem_insertionSort _).mpr h2⟩

theorem offsetsIntersect_sorted_false {o1 o2 : List Nat}
    (h : ∀ x ∈ o2, x ∉ o1) :
    offsetsIntersect (List.insertionSort (· ≤ ·) o1) (List.insertionSort (· ≤ ·) o2)
      = false := by
  rw [← Bool.not_eq_true, offsetsIntersect_iff]
  rintro ⟨x, h1, h2⟩
  exact h x ((List.mem_insertionSort _).mp h2) ((List.mem_insertionSort _).mp h1)

theorem checkCollisions_nil (no : List Nat) (n v : Nat) :
    checkCollisions [] no n v = Except.ok () := by
  unfold checkCollisions
  by_cases h : n = 0 ∧ v = 0 <;> simp [lookupAssoc, h]

theorem checkCollisions_single_err (n1 v1 n2 v2 : Nat) (r1 : UpscalingRule) (no : List Nat)
    (hover : offsetsIntersect r1.values_offset no = true)
    (hcase : ((n1, v1) = (n2, v2)) ∨ (n2 = 0 ∧ v2 = 0) ∨ (n1 = 0 ∧ v1 = 0)) :
    ∃ e, checkCollisions [((n1, v1), [r1])] no n2 v2 = Except.error e := by
  rcases hcase with hk | hbv | hbl
  · have h1 : n1 = n2 := congrArg Prod.fst hk
    have h2 : v1 = v2 := congrArg Prod.snd hk
    subst h1
    subst h2
    exact ⟨"collision with an existing rule on the same label",
      by unfold checkCollisions; simp [lookupAssoc, hover]⟩
  · obtain ⟨h2, h4⟩ := hbv
    subst h2
    subst h4
    by_cases hbl0 : (n1, v1) = ((0 : Nat), (0 : Nat))
    · have h1 : n1 = 0 := congrArg Prod.fst hbl0
      have h3 : v1 = 0 := congrArg Prod.snd hbl0
      subst h1
      subst h3
      exact ⟨"collision with an existing rule on the same label",
        by unfold checkCollisions; simp [lookupAssoc, hover]⟩
    · have hbl0' : ¬ (n1 = 0 ∧ v1 = 0) := by
        rintro ⟨ha, hb⟩
        exact hbl0 (by rw [ha, hb])
      exact ⟨"by-value rule collides with an existing rule",
        by unfold checkCollisions; simp [lookupAssoc, hbl0, hbl0', hover]⟩
  · obtain ⟨h1, h3⟩ := hbl
    subst h1
    subst h3
    by_cases hk2 : ((0 : Nat), (0 : Nat)) = (n2, v2)
    · have h2 : 0 = n2 := congrArg Prod.fst hk2
      have h4 : 0 = v2 := congrArg Prod.snd hk2
      subst h2
      subst h4
      exact ⟨"collision with an existing rule on the same label",
        by unfold checkCollisions; simp [lookupAssoc, hover]⟩
    · have hn2v2 : ¬ (n2 = 0 ∧ v2 = 0) := by
        rintro ⟨ha, hb⟩
        exact hk2 (by rw [ha, hb])
      have hk2' : ¬ (0 = n2 ∧ 0 = v2) := by
        rintro ⟨ha, hb⟩
        exact hk2 (by rw [← ha, ← hb])
      refine ⟨"rule collides with an existing by-value rule", ?_⟩
      unfold checkCollisions
      simp only [lookupAssoc, hn2v2, hover, if_neg hk2]
      simp [hover, hn2v2]

theorem checkCollisions_single_ok (n1 v1 n2 v2 : Nat) (r1 : UpscalingRule) (no : List Nat)
    (hdisj : offsetsIntersect r1.values_offset no = false) :
    checkCollisions [((n1, v1), [r1])] no n2 v2 = Except.ok () := by
  have hgetD : ∀ k : Nat × Nat,
      ((lookupAssoc [((n1, v1), [r1])] k).getD []).any
        (fun r => offsetsIntersect r.values_offset no) = false := by
    intro k
    by_cases hk : (n1, v1) = k <;> simp [lookupAssoc, hk, hdisj]
  unfold checkCollisions
  by_cases hbv : n2 = 0 ∧ v2 = 0 <;> simp [hgetD, hbv, hdisj]

/-- The outcome of add_upscaling_rule as a function of the offsets
check, the collision check and the validity check. -/
theorem addUpscalingRule_snd (q : Profile) (o2 : List Nat) (n2s v2s : String)
    (info2 : UpscalingInfo) :
    (addUpscalingRule q o2 n2s v2s info2).2
      = (if ¬ (o2.all fun x => x < q.sample_types.length) then
           Except.error "invalid offset"
         else
           match checkCollisions q.upscaling_rules (List.insertionSort (· ≤ ·) o2)
               (stInsert q.strings n2s).1 (stInsert (stInsert q.strings n2s).2 v2s).1 with
           | Except.error e => Except.error e
           | Except.ok _ =>
             match info2.checkValidity q.sample_types.length with
             | Except.error e => Except.error e
             | Except.ok _ => Except.ok ()) := by
  unfold addUpscalingRule
  by_cases hc : ¬ (o2.all fun x => x < q.sample_types.length)
  · rw [if_pos hc, if_pos hc]
  · rw [if_neg hc, if_neg hc]
    dsimp only
    cases hcc : checkCollisions q.upscaling_rules (List.insertionSort (· ≤ ·) o2)
        (stInsert q.strings n2s).1 (stInsert (stInsert q.strings n2s).2 v2s).1 with
    | error e => rfl
    | ok _ =>
      cases hcv : info2.checkValidity q.sample_types.length with
      | error e => rfl
      | ok _ => rfl

/-- Shape of a profile after the first successful add_upscaling_rule on
a profile with no rules. -/
theorem addUpscalingRule_empty_shape (p : Profile) (o : List Nat) (name value : String)
    (info : UpscalingInfo) (hp : p.upscaling_rules = [])
    (hok : (addUpscalingRule p o name value info).2 = Except.ok ()) :
    (addUpscalingRule p o name value info).1.upscaling_rules
      = [(((stInsert p.strings name).1, (stInsert (stInsert p.strings name).2 value).1),
          [⟨List.insertionSort (· ≤ ·) o, info⟩])]
  ∧ (addUpscalingRule p o name value info).1.strings
      = (stInsert (stInsert p.strings name).2 value).2
  ∧ (addUpscalingRule p o name value info).1.sample_types = p.sample_types := by
  unfold addUpscalingRule at *
  by_cases hc : ¬ (o.all fun x => x < p.sample_types.length)
  · rw [if_pos hc] at hok
    simp at hok
  · rw [if_neg hc] at hok ⊢
    dsimp only at hok ⊢
    rw [hp, checkCollisions_nil] at hok ⊢
    dsimp only at hok ⊢
    cases hcv : info.checkValidity p.sample_types.length with
    | error e => simp [hcv] at hok
    | ok _ => exact ⟨rfl, rfl, rfl⟩

/-- Claim C9: after a first rule is registered on a rule-free profile,
a second add_upscaling_rule fails whenever it shares the (label key,
label value) pair with the existing rule and their offset sets
intersect; a by-value rule (empty name and value strings) also
conflicts with by-label rules on overlapping offsets, in both
directions; and a rule with offsets disjoint from the existing rule's
succeeds (given in-range offsets and valid info), regardless of the
order in which offsets are given (the offset lists are quantified over
unsorted input order and the conditions depend only on membership). -/
theorem c9_upscaling_collisions (p : Profile) (o1 : List Nat) (name1 value1 : String)
    (info1 : UpscalingInfo)
    (hhead : p.strings.head? = some "")
    (hp : p.upscaling_rules = [])
    (hok1 : (addUpscalingRule p o1 name1 value1 info1).2 = Except.ok ()) :
    (∀ o2 info2, (∃ x, x ∈ o1 ∧ x ∈ o2) →
      exceptIsOk (addUpscalingRule (addUpscalingRule p o1 name1 value1 info1).1
        o2 name1 value1 info2).2 = false)
  ∧ (∀ o2 info2, (∃ x, x ∈ o1 ∧ x ∈ o2) →
      exceptIsOk (addUpscalingRule (addUpscalingRule p o1 name1 value1 info1).1
        o2 "" "" info2).2 = false)
  ∧ (name1 = "" → value1 = "" →
      ∀ o2 n2s v2s info2, (∃ x, x ∈ o1 ∧ x ∈ o2) →
      exceptIsOk (addUpscalingRule (addUpscalingRule p o1 name1 value1 info1).1
        o2 n2s v2s info2).2 = false)
  ∧ (∀ o2 n2s v2s info2, (∀ x ∈ o2, x ∉ o1) →
      (∀ x ∈ o2, x < p.sample_types.length) →
      info2.checkValidity p.sample_types.length = Except.ok () →
      (addUpscalingRule (addUpscalingRule p o1 name1 value1 info1).1
        o2 n2s v2s info2).2 = Except.ok ()) := by
  obtain ⟨hrules, hstr, hsty⟩ := addUpscalingRule_empty_shape p o1 name1 value1 info1 hp hok1
  obtain ⟨u1, hu1⟩ := stInsert_ext p.strings name1
  obtain ⟨u2, hu2⟩ := stInsert_ext (stInsert p.strings name1).2 value1
  have hs2head : ((stInsert (stInsert p.strings name1).2 value1).2).head? = some "" := by
    rw [hu2, hu1, List.append_assoc]
    exact head?_append_of_head _ hhead
  refine ⟨?_, ?_, ?_, ?_⟩
  · intro o2 info2 hover_ex
    have hover := offsetsIntersect_sorted_true hover_ex
    simp only [addUpscalingRule_snd, hsty, hstr, hrules,
      (stInsert_stable_pair p.strings name1 value1).1,
      (stInsert_stable_pair p.strings name1 value1).2]
    by_cases hv2 : (o2.all fun x => decide (x < p.sample_types.length)) = true
    · rw [if_neg (not_not_intro hv2)]
      obtain ⟨msg, hmsg⟩ := checkCollisions_single_err
        (stInsert p.strings name1).1 (stInsert (stInsert p.strings name1).2 value1).1
        (stInsert p.strings name1).1 (stInsert (stInsert p.strings name1).2 value1).1
        ⟨List.insertionSort (· ≤ ·) o1, info1⟩ (List.insertionSort (· ≤ ·) o2)
        hover (Or.inl rfl)
      rw [hmsg]
      rfl
    · rw [if_pos hv2]
      rfl
  · intro o2 info2 hover_ex
    have hover := offsetsIntersect_sorted_true hover_ex
    have hins : stInsert ((stInsert (stInsert p.strings name1).2 value1).2) "" =
        (0, (stInsert (stInsert p.strings name1).2 value1).2) :=
      stInsert_head_empty hs2head
    simp only [addUpscalingRule_snd, hsty, hstr, hrules, hins]
    by_cases hv2 : (o2.all fun x => decide (x < p.sample_types.length)) = true
    · rw [if_neg (not_not_intro hv2)]
      obtain ⟨msg, hmsg⟩ := checkCollisions_single_err
        (stInsert p.strings name1).1 (stInsert (stInsert p.strings name1).2 value1).1
        0 0 ⟨List.insertionSort (· ≤ ·) o1, info1⟩ (List.insertionSort (· ≤ ·) o2)
        hover (Or.inr (Or.inl ⟨rfl, rfl⟩))
      rw [hmsg]
      rfl
    · rw [if_pos hv2]
      rfl
  · intro hn1 hv1 o2 n2s v2s info2 hover_ex
    subst hn1
    subst hv1
    have hover := offsetsIntersect_sorted_true hover_ex
    have hi1 : stInsert p.strings "" = (0, p.strings) := stInsert_head_empty hhead
    rw [hi1] at hrules hstr
    simp only at hrules hstr
    rw [hi1] at hrules hstr
    simp only at hrules hstr
    simp only [addUpscalingRule_snd, hsty, hstr, hrules]
    by_cases hv2 : (o2.all fun x => decide (x < p.sample_types.length)) = true
    · rw [if_neg (not_not_intro hv2)]
      obtain ⟨msg, hmsg⟩ := checkCollisions_single_err 0 0
        (stInsert p.strings n2s).1 (stInsert (stInsert p.strings n2s).2 v2s).1
        ⟨List.insertionSort (· ≤ ·) o1, info1⟩ (List.insertionSort (· ≤ ·) o2)
        hover (Or.inr (Or.inr ⟨rfl, rfl⟩))
      rw [hmsg]
      rfl
    · rw [if_pos hv2]
      rfl
  · intro o2 n2s v2s info2 hdis hrange hinfo2
    have hdisj := offsetsIntersect_sorted_false hdis
    have hall : (o2.all fun x => decide (x < p.sample_types.length)) = true := by
      rw [List.all_eq_true]
      intro x hx
      simpa using hrange x hx
    simp only [addUpscalingRule_snd, hsty, hstr, hrules]
    rw [if_neg (not_not_intro hall)]
    rw [checkCollisions_single_ok _ _ _ _
      ⟨List.insertionSort (· ≤ ·) o1, info1⟩ (List.insertionSort (· ≤ ·) o2) hdisj]
    rw [hinfo2]

/-- Profile used by the C9 witness: two sample types and one
proportional rule on offset 0 under label ("x", "y"). -/
def witRuleProfile : Profile := buildProfile [("a", "u"), ("b", "u")] none 0

theorem c9_witness :
    exceptIsOk (addUpscalingRule
      (addUpscalingRule witRuleProfile [0] "x" "y" (UpscalingInfo.proportional 1)).1
      [0] "x" "y" (UpscalingInfo.proportional 1)).2 = false
  ∧ (addUpscalingRule
      (addUpscalingRule witRuleProfile [0] "x" "y" (UpscalingInfo.proportional 1)).1
      [1] "x" "y" (UpscalingInfo.proportional 1)).2 = Except.ok () := by
  have h := c9_upscaling_collisions witRuleProfile [0] "x" "y"
    (UpscalingInfo.proportional 1) rfl rfl (by decide)
  refine ⟨h.1 [0] (UpscalingInfo.proportional 1) ⟨0, by decide, by decide⟩, ?_⟩
  exact h.2.2.2 [1] "x" "y" (UpscalingInfo.proportional 1)
    (by decide) (by decide) (by decide)

end Datadog
